import Mathlib

/-!
Verification development for the gapi-platform resource registration and
request-dispatch pipeline (`pkg/resource`, `pkg/state`).

The Go code is shallowly embedded as executable Lean definitions:

* Dynamic (reflection-based) model values are embedded as `ModelValue`:
  a value is either a pointer or a non-pointer, and its underlying type is
  either struct-shaped or primitive.  Struct contents are represented by
  `Instance`, a record with an `ID` field and one further field (`Name`),
  matching the model shape the repository's own tests use
  (`TestModel { ID uint; Name string }`).
* The external GORM storage collaborator is an oracle (`Storage`) giving the
  outcome of each of the five CRUD capability calls; every embedded function
  additionally returns the list of storage calls it performed
  (`List StorageCall`), so "no storage interaction" is expressible.
* The shared model instance pointed to by `ResourceConfig.Model` is a single
  mutable cell; functions that may write through that pointer take and return
  its contents (`Instance`).
* Go `error` values are `GoError`; `fiber.NewError` is `fiberNewError`.
  A Go panic reachable in `DefaultProcessor.handleUpdate` (reflection on a
  non-struct value) is the distinguished `ProcOut.panicked` outcome.
-/

/-- Kind of a Go type as seen by reflection: struct-shaped or primitive. -/
inductive GoShape where
  | strct
  | prim
  deriving DecidableEq

/-- A Go type: its name (as reported by reflection) and its shape. -/
structure GoType where
  Name : String
  Shape : GoShape
  deriving DecidableEq

/-- A dynamically typed Go model value (`interface{}`): either a pointer to a
value of some type, or a plain (non-pointer) value of some type.  For a
pointer to a struct model, the pointee's field contents live in a separate
shared cell (`Instance`), threaded explicitly where the code may write it. -/
inductive ModelValue where
  | byValue (t : GoType)
  | byPtr (t : GoType)
  deriving DecidableEq

/-- Contents of one model record.  `ID` is the identifier field located by
reflection (`FieldByName "ID"`); `Name` stands for the remaining fields. -/
structure Instance where
  ID : Nat
  Name : String
  deriving DecidableEq

/-- The zero value of the model struct, as produced by `reflect.New`. -/
def zeroInstance : Instance := { ID := 0, Name := "" }

/-- A dynamically typed data value flowing between Provider, Processor and
dispatch (`interface{}`): the nil interface, a non-nil pointer to a single
record, or a non-nil pointer to a slice of records. -/
inductive Data where
  | nil
  | inst (i : Instance)
  | list (l : List Instance)
  deriving DecidableEq

/-- A Go `error` value: either a `*fiber.Error` carrying an HTTP status code
and message, or some other error value. -/
inductive GoError where
  | fiberErr (Code : Nat) (Message : String)
  | other (tag : String)
  deriving DecidableEq

/-- `fiber.NewError(code, message)`. -/
def fiberNewError (code : Nat) (message : String) : GoError :=
  GoError.fiberErr code message

/-- A request body, as consumed by `c.BodyParser`: either malformed JSON, or
an object optionally carrying an `id` and a `name` field. -/
inductive Body where
  | malformed
  | fields (id : Option Nat) (name : Option String)
  deriving DecidableEq

/-- `c.BodyParser(dest)`: deserializes the body over the destination
instance, leaving absent fields at their current value; fails on a
malformed body. -/
def BodyParser (b : Body) (dest : Instance) : Option Instance :=
  match b with
  | Body.malformed => none
  | Body.fields i n => some { ID := i.getD dest.ID, Name := n.getD dest.Name }

/-- Outcome of a `DB.First(dest, id)` storage call: the found record
(written into `dest`), `gorm.ErrRecordNotFound`, or another error. -/
inductive FirstOutcome where
  | found (rec : Instance)
  | errRecordNotFound
  | errOther
  deriving DecidableEq

/-- Outcome of a `DB.Find(dest)` storage call: the rows (written into the
destination slice in storage order), or an error. -/
inductive FindOutcome where
  | rows (recs : List Instance)
  | errOther
  deriving DecidableEq

/-- Outcome of a mutating storage call (`Create`, `Save`, `Delete`). -/
inductive WriteOutcome where
  | ok
  | errOther
  deriving DecidableEq

/-- One storage-capability call, with its argument (the instance or data
value handed to the storage layer). -/
inductive StorageCall where
  | first (id : String)
  | findAll
  | create (i : Instance)
  | save (i : Instance)
  | delete (d : Data)
  deriving DecidableEq

/-- The external GORM storage collaborator, as an oracle giving the outcome
of each capability call.  `createResult` is the write-back `Create` performs
on its argument on success (e.g. assigning a server-generated identifier). -/
structure Storage where
  first : String → FirstOutcome
  find : FindOutcome
  create : Instance → WriteOutcome
  createResult : Instance → Instance
  save : Instance → WriteOutcome
  delete : Data → WriteOutcome

/-- The per-request context (`*fiber.Ctx`) as read by this core: the HTTP
method, the `:id` path parameter (empty string when absent), the request
body, and the `"model"` entry of the per-request key-value store. -/
structure Ctx where
  Method : String
  paramId : String
  body : Body
  localModel : Option ModelValue

/-- `c.Locals("model", m)`: attach the model descriptor to the context. -/
def withModel (c : Ctx) (m : ModelValue) : Ctx :=
  { c with localModel := some m }

/-- `reflect` check used by `validateModel`: the value is a pointer and its
pointee is struct-shaped. -/
def isPtrToStruct : ModelValue → Bool
  | ModelValue.byPtr t => t.Shape = GoShape.strct
  | ModelValue.byValue _ => false

/-- `validateModel` (pkg/state/validation.go): resolves the model descriptor
from the context; fails 400 when absent or not a pointer to a struct. -/
def validateModel (c : Ctx) : Except GoError ModelValue :=
  match c.localModel with
  | none => Except.error (fiberNewError 400 "model not found in context")
  | some modelType =>
    if isPtrToStruct modelType then Except.ok modelType
    else Except.error (fiberNewError 400 "invalid model type")

/-- `DefaultProvider.findById` (pkg/state/provider.go): a `DB.First` lookup
whose destination is the model pointer itself — on success the found record
is written into the shared cell and that same pointer is returned. -/
def findById (db : Storage) (id : String) (shared : Instance) :
    Except GoError Data × Instance × List StorageCall :=
  match db.first id with
  | FirstOutcome.errRecordNotFound =>
    (Except.error (fiberNewError 404 "record not found"), shared, [StorageCall.first id])
  | FirstOutcome.errOther =>
    (Except.error (fiberNewError 500 "database error"), shared, [StorageCall.first id])
  | FirstOutcome.found rec =>
    (Except.ok (Data.inst rec), rec, [StorageCall.first id])

/-- `DefaultProvider.findAll` (pkg/state/provider.go): allocates a fresh
slice of the model's element type and runs `DB.Find` into it; the shared
cell is not touched. -/
def findAll (db : Storage) (shared : Instance) :
    Except GoError Data × Instance × List StorageCall :=
  match db.find with
  | FindOutcome.errOther =>
    (Except.error (fiberNewError 500 "failed to fetch records"), shared, [StorageCall.findAll])
  | FindOutcome.rows recs =>
    (Except.ok (Data.list recs), shared, [StorageCall.findAll])

/-- `DefaultProvider.Provide` (pkg/state/provider.go): validate the model
descriptor, then do a single-record lookup when the `:id` path parameter is
non-empty, a collection fetch otherwise. -/
def Provide (db : Storage) (c : Ctx) (shared : Instance) :
    Except GoError Data × Instance × List StorageCall :=
  match validateModel c with
  | Except.error e => (Except.error e, shared, [])
  | Except.ok _ =>
    if c.paramId ≠ "" then findById db c.paramId shared
    else findAll db shared

/-- Result of `DefaultProcessor.Process`: a data value, a returned Go error,
or a Go panic (reachable via reflection on a non-struct value). -/
inductive ProcOut where
  | ok (d : Data)
  | fail (e : GoError)
  | panicked
  deriving DecidableEq

/-- `DefaultProcessor.handleCreate`: fresh zero instance, body
deserialization, `DB.Create`, returning the storage-populated instance. -/
def handleCreate (db : Storage) (c : Ctx) : ProcOut × List StorageCall :=
  match BodyParser c.body zeroInstance with
  | none => (ProcOut.fail (fiberNewError 400 "invalid request body"), [])
  | some newInstance =>
    match db.create newInstance with
    | WriteOutcome.errOther =>
      (ProcOut.fail (fiberNewError 500 "failed to create record"), [StorageCall.create newInstance])
    | WriteOutcome.ok =>
      (ProcOut.ok (Data.inst (db.createResult newInstance)), [StorageCall.create newInstance])

/-- `DefaultProcessor.handleUpdate`: requires the provider-supplied existing
record to be non-nil, deserializes the body into a fresh zero instance,
overwrites its `ID` field with the existing record's identifier, and saves.
When the existing value is a pointer to a slice rather than to a struct,
`reflect.Value.FieldByName` panics after body parsing. -/
def handleUpdate (db : Storage) (c : Ctx) (existing : Data) :
    ProcOut × List StorageCall :=
  match existing with
  | Data.nil => (ProcOut.fail (fiberNewError 400 "record not found"), [])
  | Data.inst e =>
    match BodyParser c.body zeroInstance with
    | none => (ProcOut.fail (fiberNewError 400 "invalid request body"), [])
    | some parsed =>
      let newInstance : Instance := { parsed with ID := e.ID }
      match db.save newInstance with
      | WriteOutcome.errOther =>
        (ProcOut.fail (fiberNewError 500 "failed to update record"), [StorageCall.save newInstance])
      | WriteOutcome.ok =>
        (ProcOut.ok (Data.inst newInstance), [StorageCall.save newInstance])
  | Data.list _ =>
    match BodyParser c.body zeroInstance with
    | none => (ProcOut.fail (fiberNewError 400 "invalid request body"), [])
    | some _ => (ProcOut.panicked, [])

/-- `DefaultProcessor.handleDelete`: requires non-nil data, deletes it, and
returns the nil sentinel (so dispatch responds 204). -/
def handleDelete (db : Storage) (data : Data) : ProcOut × List StorageCall :=
  match data with
  | Data.nil => (ProcOut.fail (fiberNewError 400 "no data to delete"), [])
  | d =>
    match db.delete d with
    | WriteOutcome.errOther =>
      (ProcOut.fail (fiberNewError 500 "failed to delete record"), [StorageCall.delete d])
    | WriteOutcome.ok => (ProcOut.ok Data.nil, [StorageCall.delete d])

/-- `DefaultProcessor.Process`: validate the model descriptor, then key on
the request's HTTP method — POST creates, PUT updates, DELETE deletes, and
any other method passes the provider's data through unchanged. -/
def Process (db : Storage) (c : Ctx) (data : Data) : ProcOut × List StorageCall :=
  match validateModel c with
  | Except.error e => (ProcOut.fail e, [])
  | Except.ok _ =>
    if c.Method = "POST" then handleCreate db c
    else if c.Method = "PUT" then handleUpdate db c data
    else if c.Method = "DELETE" then handleDelete db data
    else (ProcOut.ok data, [])

/-- The closed set of CRUD operation tags (pkg/resource, `Operation`). -/
inductive Operation where
  | create
  | update
  | delete
  | getItem
  | getList
  deriving DecidableEq

/-- `OperationConfig`: a provider, a processor, and an enabled flag.  The
provider and processor are arbitrary state-threading functions over a state
type `σ` (the default storage-backed wiring instantiates `σ` with the shared
model cell paired with the storage-call trace). -/
structure OperationConfig (σ : Type) where
  Provider : Ctx → σ → Except GoError Data × σ
  Processor : Ctx → Data → σ → ProcOut × σ
  Enabled : Bool

/-- `ResourceConfig`: the model value, the operations map (an association
list keyed by `Operation`), and the base path. -/
structure ResourceConfig (σ : Type) where
  Model : ModelValue
  Operations : List (Operation × OperationConfig σ)
  Path : String

/-- Lookup in the operations map (`config.Operations[op]`). -/
def findOp {σ : Type} (ops : List (Operation × OperationConfig σ)) (op : Operation) :
    Option (OperationConfig σ) :=
  match ops with
  | [] => none
  | (o, oc) :: rest => if o = op then some oc else findOp rest op

/-- State threaded through the default storage-backed wiring: the contents
of the shared model instance cell, and the accumulated storage-call trace. -/
def DSt : Type := Instance × List StorageCall

/-- The storage-backed `DefaultProvider.Provide` as a state-threading
pipeline stage over `DSt`. -/
def DefaultProvider (db : Storage) : Ctx → DSt → Except GoError Data × DSt :=
  fun c s =>
    let p := Provide db c s.1
    (p.1, (p.2.1, s.2 ++ p.2.2))

/-- The storage-backed `DefaultProcessor.Process` as a state-threading
pipeline stage over `DSt` (it never writes the shared model cell). -/
def DefaultProcessor (db : Storage) : Ctx → Data → DSt → ProcOut × DSt :=
  fun c d s =>
    let p := Process db c d
    (p.1, (s.1, s.2 ++ p.2))

/-- What the handler closure built by `handleOperation` sends back: a Go
error returned as-is to Fiber, a 204 No Content with empty body
(`c.SendStatus(fiber.StatusNoContent)`), a success status with the result
serialized as the JSON body (`c.JSON(result)`), or a propagated panic. -/
inductive HandlerOutcome where
  | err (e : GoError)
  | noContent
  | jsonOk (d : Data)
  | panicked

/-- Pipeline stages actually invoked during one dispatch. -/
inductive Stage where
  | provide
  | process
  deriving DecidableEq

/-- `Resource.handleOperation` (pkg/resource/resource.go): re-check the
operation's availability, attach the model descriptor to the context, run
Provider then Processor, and respond — errors surfaced unchanged, nil result
as 204 No Content, otherwise the result as the JSON body.  Also returns the
final pipeline state and the list of stages invoked. -/
def handleOperation {σ : Type} (cfg : ResourceConfig σ) (op : Operation)
    (c0 : Ctx) (s : σ) : HandlerOutcome × σ × List Stage :=
  match findOp cfg.Operations op with
  | none => (HandlerOutcome.err (fiberNewError 404 "Operation not found"), s, [])
  | some oc =>
    if oc.Enabled then
      let c := withModel c0 cfg.Model
      match oc.Provider c s with
      | (Except.error e, s1) => (HandlerOutcome.err e, s1, [Stage.provide])
      | (Except.ok data, s1) =>
        match oc.Processor c data s1 with
        | (ProcOut.fail e, s2) =>
          (HandlerOutcome.err e, s2, [Stage.provide, Stage.process])
        | (ProcOut.panicked, s2) =>
          (HandlerOutcome.panicked, s2, [Stage.provide, Stage.process])
        | (ProcOut.ok result, s2) =>
          if result = Data.nil then
            (HandlerOutcome.noContent, s2, [Stage.provide, Stage.process])
          else
            (HandlerOutcome.jsonOk result, s2, [Stage.provide, Stage.process])
    else (HandlerOutcome.err (fiberNewError 404 "Operation not found"), s, [])

/-- A route registered with the router: HTTP method, path pattern, and the
operation whose handler closure is bound to it. -/
structure Route where
  Method : String
  Path : String
  Op : Operation
  deriving DecidableEq

/-- The fixed operation-to-route table of `RegisterRoutes`. -/
def routeFor (path : String) : Operation → Route
  | Operation.getList => { Method := "GET", Path := path, Op := Operation.getList }
  | Operation.create => { Method := "POST", Path := path, Op := Operation.create }
  | Operation.getItem => { Method := "GET", Path := path ++ "/:id", Op := Operation.getItem }
  | Operation.update => { Method := "PUT", Path := path ++ "/:id", Op := Operation.update }
  | Operation.delete => { Method := "DELETE", Path := path ++ "/:id", Op := Operation.delete }

/-- An operation is routable when it is present in the operations map with
`Enabled = true` (`op, exists := config.Operations[o]; exists && op.Enabled`). -/
def isEnabled {σ : Type} (cfg : ResourceConfig σ) (op : Operation) : Bool :=
  match findOp cfg.Operations op with
  | some oc => oc.Enabled
  | none => false

/-- `Resource.RegisterRoutes` (pkg/resource/resource.go): for each enabled
operation, in source order, bind its route; disabled or absent operations
bind nothing.  Returns the list of routes registered with the router. -/
def RegisterRoutes {σ : Type} (cfg : ResourceConfig σ) : List Route :=
  (if isEnabled cfg Operation.getList then [routeFor cfg.Path Operation.getList] else []) ++
  (if isEnabled cfg Operation.create then [routeFor cfg.Path Operation.create] else []) ++
  (if isEnabled cfg Operation.getItem then [routeFor cfg.Path Operation.getItem] else []) ++
  (if isEnabled cfg Operation.update then [routeFor cfg.Path Operation.update] else []) ++
  (if isEnabled cfg Operation.delete then [routeFor cfg.Path Operation.delete] else [])

/-- The five operations in the order `RegisterRoutes` considers them. -/
def allOperations : List Operation :=
  [Operation.getList, Operation.create, Operation.getItem, Operation.update, Operation.delete]

/-- `reflect.TypeOf(model)` followed by `Elem()` when the value is a
pointer: the name of the underlying model type. -/
def typeName : ModelValue → String
  | ModelValue.byPtr t => t.Name
  | ModelValue.byValue t => t.Name

/-- `ResourceManager.CreateResource` (pkg/resource/manager.go): derive the
default path from the model's type name, build the default configuration
with all five operations enabled and bound to the storage-backed default
provider and processor, then apply the customizers in order.  The returned
`Resource` is represented by the `ResourceConfig` it wraps. -/
def CreateResource (db : Storage) (model : ModelValue)
    (customConfig : List (ResourceConfig DSt → ResourceConfig DSt)) : ResourceConfig DSt :=
  let defaultPath := "/" ++ (typeName model).toLower ++ "s"
  let config : ResourceConfig DSt :=
    { Model := model
      Path := defaultPath
      Operations :=
        [ (Operation.create,
            { Provider := DefaultProvider db, Processor := DefaultProcessor db, Enabled := true }),
          (Operation.update,
            { Provider := DefaultProvider db, Processor := DefaultProcessor db, Enabled := true }),
          (Operation.getItem,
            { Provider := DefaultProvider db, Processor := DefaultProcessor db, Enabled := true }),
          (Operation.getList,
            { Provider := DefaultProvider db, Processor := DefaultProcessor db, Enabled := true }),
          (Operation.delete,
            { Provider := DefaultProvider db, Processor := DefaultProcessor db, Enabled := true }) ] }
  customConfig.foldl (fun rc f => f rc) config

/-- The path invariant claimed in the spec: non-empty and beginning with the
character `/`. -/
def pathOk (s : String) : Prop :=
  s.data ≠ [] ∧ s.data.head? = some '/'

/-- A concrete storage stub used by witnesses: one record, every call
succeeds. -/
def stubDB : Storage :=
  { first := fun _ => FirstOutcome.found { ID := 1, Name := "Test 1" }
    find := FindOutcome.rows [{ ID := 1, Name := "Test 1" }, { ID := 2, Name := "Test 2" }]
    create := fun _ => WriteOutcome.ok
    createResult := fun i => { i with ID := 1 }
    save := fun _ => WriteOutcome.ok
    delete := fun _ => WriteOutcome.ok }

/-- A concrete pointer-to-struct model descriptor used by witnesses. -/
def userModel : ModelValue := ModelValue.byPtr { Name := "user", Shape := GoShape.strct }

/-- C7: model-descriptor validation (shared by `DefaultProvider.Provide` and
`DefaultProcessor.Process`) fails with a bad-request-class (400) error
exactly when the descriptor is absent from the request context or does not
refer to (point at) a composite/struct-shaped type; for every descriptor
referring to a struct-shaped model, validation succeeds and returns the
descriptor. -/
theorem validateModel_characterization (c : Ctx) :
    (c.localModel = none →
      validateModel c = Except.error (fiberNewError 400 "model not found in context"))
    ∧ (∀ t, c.localModel = some (ModelValue.byValue t) →
      validateModel c = Except.error (fiberNewError 400 "invalid model type"))
    ∧ (∀ t, c.localModel = some (ModelValue.byPtr t) → t.Shape = GoShape.prim →
      validateModel c = Except.error (fiberNewError 400 "invalid model type"))
    ∧ (∀ t, c.localModel = some (ModelValue.byPtr t) → t.Shape = GoShape.strct →
      validateModel c = Except.ok (ModelValue.byPtr t)) := by
  refine ⟨?_, ?_, ?_, ?_⟩
  · intro h; simp [validateModel, h]
  · intro t h; simp [validateModel, h, isPtrToStruct]
  · intro t h hs; simp [validateModel, h, isPtrToStruct, hs]
  · intro t h hs; simp [validateModel, h, isPtrToStruct, hs]

/-- Witness for C7: a pointer-to-struct descriptor validates successfully. -/
theorem validateModel_characterization_witness :
    validateModel
        { Method := "GET", paramId := "", body := Body.fields none none,
          localModel := some userModel }
      = Except.ok userModel :=
  (validateModel_characterization _).2.2.2 { Name := "user", Shape := GoShape.strct } rfl rfl

/-- C4: for every model value (by value or by pointer), `CreateResource`
with no customizers yields a config whose path is "/" plus the lowercased
type name plus "s", whose model is the given value, and whose operations map
has exactly the five CRUD operations, each enabled and bound to the
storage-backed default provider and processor.  `CreateResource` is a total
pure function: it is deterministic and has no error outcome. -/
theorem CreateResource_defaults (db : Storage) (model : ModelValue) :
    (CreateResource db model []).Path = "/" ++ (typeName model).toLower ++ "s"
    ∧ (CreateResource db model []).Model = model
    ∧ (CreateResource db model []).Operations.length = 5
    ∧ ∀ op, findOp (CreateResource db model []).Operations op =
        some { Provider := DefaultProvider db, Processor := DefaultProcessor db,
               Enabled := true } := by
  refine ⟨rfl, rfl, rfl, ?_⟩
  intro op
  cases op <;> rfl

/-- C5: `RegisterRoutes` registers exactly the routes of the fixed table
(get_list `GET p`, create `POST p`, get_item `GET p/:id`, update
`PUT p/:id`, delete `DELETE p/:id`), one per enabled operation and in
source order, and no route at all for a disabled or absent operation. -/
theorem RegisterRoutes_route_table {σ : Type} (cfg : ResourceConfig σ) :
    RegisterRoutes cfg
      = (allOperations.filter (fun op => isEnabled cfg op)).map (routeFor cfg.Path)
    ∧ ∀ op, (RegisterRoutes cfg).filter (fun r => r.Op == op)
        = (if isEnabled cfg op then [routeFor cfg.Path op] else []) := by
  constructor
  · cases h1 : isEnabled cfg Operation.getList <;>
    cases h2 : isEnabled cfg Operation.create <;>
    cases h3 : isEnabled cfg Operation.getItem <;>
    cases h4 : isEnabled cfg Operation.update <;>
    cases h5 : isEnabled cfg Operation.delete <;>
      simp [RegisterRoutes, allOperations, h1, h2, h3, h4, h5]
  · intro op
    cases op <;>
    (cases h1 : isEnabled cfg Operation.getList <;>
     cases h2 : isEnabled cfg Operation.create <;>
     cases h3 : isEnabled cfg Operation.getItem <;>
     cases h4 : isEnabled cfg Operation.update <;>
     cases h5 : isEnabled cfg Operation.delete <;>
       simp [RegisterRoutes, routeFor, h1, h2, h3, h4, h5])

/-- C9 counterexample: a customizer may overwrite `Path` with any string
(no validation is performed on customizer output), so the claimed invariant
fails: with a customizer setting the path to the empty string, the resulting
config's path is neither non-empty nor does it begin with "/". -/
theorem CreateResource_path_cex :
    ¬ pathOk (CreateResource stubDB userModel [fun rc => { rc with Path := "" }]).Path := by
  intro h
  exact h.1 rfl

/-- Helper: folding customizers that leave `Path` unchanged leaves the
config's path unchanged. -/
theorem foldl_customizers_path (l : List (ResourceConfig DSt → ResourceConfig DSt))
    (h : ∀ f ∈ l, ∀ rc, (f rc).Path = rc.Path) (rc : ResourceConfig DSt) :
    (l.foldl (fun rc f => f rc) rc).Path = rc.Path := by
  induction l generalizing rc with
  | nil => rfl
  | cons f rest ih =>
    simp only [List.foldl_cons]
    rw [ih (fun g hg => h g (List.mem_cons_of_mem f hg)) (f rc),
        h f (List.mem_cons_self f rest)]

/-- C9 (amended): for every model and every sequence of customizer functions
none of which modifies the `Path` field, the ResourceConfig returned by
`CreateResource` has a path that is a non-empty string beginning with "/".
(As stated over arbitrary customizers the claim is false, since a customizer
may overwrite the path with anything; see the counterexample.) -/
theorem CreateResource_path_invariant (db : Storage) (model : ModelValue)
    (customConfig : List (ResourceConfig DSt → ResourceConfig DSt))
    (h : ∀ f ∈ customConfig, ∀ rc, (f rc).Path = rc.Path) :
    pathOk (CreateResource db model customConfig).Path := by
  simp only [CreateResource]
  rw [foldl_customizers_path customConfig h]
  show pathOk ("/" ++ (typeName model).toLower ++ "s")
  constructor
  · simp [String.data_append]
  · simp [String.data_append]

/-- Witness for C9 (amended): with no customizers the path invariant holds. -/
theorem CreateResource_path_invariant_witness :
    pathOk (CreateResource stubDB userModel []).Path :=
  CreateResource_path_invariant stubDB userModel []
    (fun f hf => absurd hf (List.not_mem_nil f))

/-- C3: with a valid (pointer-to-struct) model descriptor,
`DefaultProvider.Provide` does a single-record lookup when the `:id` path
parameter is non-empty — 404 "record not found" when storage reports
record-not-found, 500 on any other storage error, the populated record on
success — and a collection fetch otherwise — 500 on storage error, the
(possibly empty) rows in storage order on success. -/
theorem Provide_lookup_characterization (db : Storage) (c : Ctx) (shared : Instance)
    (t : GoType) (hm : c.localModel = some (ModelValue.byPtr t))
    (hs : t.Shape = GoShape.strct) :
    (c.paramId ≠ "" → ∀ rec, db.first c.paramId = FirstOutcome.found rec →
        Provide db c shared = (Except.ok (Data.inst rec), rec, [StorageCall.first c.paramId]))
    ∧ (c.paramId ≠ "" → db.first c.paramId = FirstOutcome.errRecordNotFound →
        Provide db c shared = (Except.error (fiberNewError 404 "record not found"), shared,
          [StorageCall.first c.paramId]))
    ∧ (c.paramId ≠ "" → db.first c.paramId = FirstOutcome.errOther →
        Provide db c shared = (Except.error (fiberNewError 500 "database error"), shared,
          [StorageCall.first c.paramId]))
    ∧ (c.paramId = "" → ∀ recs, db.find = FindOutcome.rows recs →
        Provide db c shared = (Except.ok (Data.list recs), shared, [StorageCall.findAll]))
    ∧ (c.paramId = "" → db.find = FindOutcome.errOther →
        Provide db c shared = (Except.error (fiberNewError 500 "failed to fetch records"),
          shared, [StorageCall.findAll])) := by
  have hv : validateModel c = Except.ok (ModelValue.byPtr t) := by
    simp [validateModel, hm, isPtrToStruct, hs]
  refine ⟨?_, ?_, ?_, ?_, ?_⟩
  · intro hid rec hfirst
    simp [Provide, hv, hid, findById, hfirst]
  · intro hid hfirst
    simp [Provide, hv, hid, findById, hfirst]
  · intro hid hfirst
    simp [Provide, hv, hid, findById, hfirst]
  · intro hid recs hfind
    simp [Provide, hv, hid, findAll, hfind]
  · intro hid hfind
    simp [Provide, hv, hid, findAll, hfind]

/-- Witness for C3: a get_item lookup on the stub storage returns the
populated record. -/
theorem Provide_lookup_characterization_witness :
    Provide stubDB
        { Method := "GET", paramId := "1", body := Body.fields none none,
          localModel := some userModel }
        zeroInstance
      = (Except.ok (Data.inst { ID := 1, Name := "Test 1" }),
         { ID := 1, Name := "Test 1" }, [StorageCall.first "1"]) :=
  (Provide_lookup_characterization stubDB _ zeroInstance
      { Name := "user", Shape := GoShape.strct } rfl rfl).1
    (by decide) { ID := 1, Name := "Test 1" } rfl

/-- C6: with a valid model descriptor, `DefaultProcessor.Process` on any
request whose HTTP method is neither POST, PUT, nor DELETE returns the
provider-supplied data value unchanged and performs no storage call. -/
theorem Process_other_method_passthrough (db : Storage) (c : Ctx) (data : Data)
    (t : GoType) (hm : c.localModel = some (ModelValue.byPtr t))
    (hs : t.Shape = GoShape.strct)
    (h1 : c.Method ≠ "POST") (h2 : c.Method ≠ "PUT") (h3 : c.Method ≠ "DELETE") :
    Process db c data = (ProcOut.ok data, []) := by
  have hv : validateModel c = Except.ok (ModelValue.byPtr t) := by
    simp [validateModel, hm, isPtrToStruct, hs]
  simp [Process, hv, h1, h2, h3]

/-- Witness for C6: a GET request passes the provider's data through with no
storage interaction. -/
theorem Process_other_method_passthrough_witness :
    Process stubDB
        { Method := "GET", paramId := "", body := Body.fields none none,
          localModel := some userModel }
        (Data.list [{ ID := 1, Name := "Test 1" }])
      = (ProcOut.ok (Data.list [{ ID := 1, Name := "Test 1" }]), []) :=
  Process_other_method_passthrough stubDB _ _
    { Name := "user", Shape := GoShape.strct } rfl rfl
    (by decide) (by decide) (by decide)

/-- C2: for every PUT request processed by `DefaultProcessor` with a valid
model descriptor: when the provider-supplied existing record is nil,
`Process` fails with a bad-request (400) "record not found" error and makes
no storage call; when it is a non-nil record and the body deserializes, the
instance handed to `DB.Save` — and, on save success, the instance returned —
carries the `ID` taken from the existing record, whatever identifier the
request body did or did not supply. -/
theorem Process_update_overwrites_id (db : Storage) (c : Ctx) (t : GoType)
    (hmethod : c.Method = "PUT")
    (hm : c.localModel = some (ModelValue.byPtr t)) (hs : t.Shape = GoShape.strct) :
    (Process db c Data.nil = (ProcOut.fail (fiberNewError 400 "record not found"), []))
    ∧ (∀ e parsed, BodyParser c.body zeroInstance = some parsed →
        (Process db c (Data.inst e)).2 = [StorageCall.save { parsed with ID := e.ID }]
        ∧ (db.save { parsed with ID := e.ID } = WriteOutcome.ok →
            Process db c (Data.inst e)
              = (ProcOut.ok (Data.inst { parsed with ID := e.ID }),
                 [StorageCall.save { parsed with ID := e.ID }]))) := by
  have hv : validateModel c = Except.ok (ModelValue.byPtr t) := by
    simp [validateModel, hm, isPtrToStruct, hs]
  have hrun : ∀ d, Process db c d = handleUpdate db c d := by
    intro d
    simp [Process, hv, hmethod]
  constructor
  · rw [hrun]
    rfl
  · intro e parsed hbp
    rw [hrun]
    unfold handleUpdate
    rw [hbp]
    cases hsave : db.save { parsed with ID := e.ID } with
    | ok => exact ⟨by simp [hsave], fun _ => by simp [hsave]⟩
    | errOther =>
      refine ⟨by simp [hsave], fun hok => ?_⟩
      exact absurd hok (by decide)

/-- Witness for C2: updating existing record `{ID := 1, Name := "x"}` with a
body that falsifies the id (`{"id": 99, "name": "y"}`) still saves and
returns `{ID := 1, Name := "y"}`. -/
theorem Process_update_overwrites_id_witness :
    Process stubDB
        { Method := "PUT", paramId := "1", body := Body.fields (some 99) (some "y"),
          localModel := some userModel }
        (Data.inst { ID := 1, Name := "x" })
      = (ProcOut.ok (Data.inst { ID := 1, Name := "y" }),
         [StorageCall.save { ID := 1, Name := "y" }]) :=
  (((Process_update_overwrites_id stubDB
      { Method := "PUT", paramId := "1", body := Body.fields (some 99) (some "y"),
        localModel := some userModel }
      { Name := "user", Shape := GoShape.strct } rfl rfl rfl).2
    { ID := 1, Name := "x" } { ID := 99, Name := "y" } rfl).2 rfl)

/-- C1: for every request dispatched by `handleOperation` (any provider and
processor, any pipeline state): a provider error is returned unchanged and
the processor stage is never invoked; a processor error is returned
unchanged; a nil processor result with no error yields the 204 No Content
response with empty body; any other result is serialized as the JSON
response body with a success status. -/
theorem handleOperation_pipeline {σ : Type} (cfg : ResourceConfig σ) (op : Operation)
    (c0 : Ctx) (s : σ) (oc : OperationConfig σ)
    (hfind : findOp cfg.Operations op = some oc) (hen : oc.Enabled = true) :
    (∀ e s1, oc.Provider (withModel c0 cfg.Model) s = (Except.error e, s1) →
        handleOperation cfg op c0 s = (HandlerOutcome.err e, s1, [Stage.provide]))
    ∧ (∀ d s1 e s2, oc.Provider (withModel c0 cfg.Model) s = (Except.ok d, s1) →
        oc.Processor (withModel c0 cfg.Model) d s1 = (ProcOut.fail e, s2) →
        handleOperation cfg op c0 s
          = (HandlerOutcome.err e, s2, [Stage.provide, Stage.process]))
    ∧ (∀ d s1 s2, oc.Provider (withModel c0 cfg.Model) s = (Except.ok d, s1) →
        oc.Processor (withModel c0 cfg.Model) d s1 = (ProcOut.ok Data.nil, s2) →
        handleOperation cfg op c0 s
          = (HandlerOutcome.noContent, s2, [Stage.provide, Stage.process]))
    ∧ (∀ d s1 r s2, oc.Provider (withModel c0 cfg.Model) s = (Except.ok d, s1) →
        oc.Processor (withModel c0 cfg.Model) d s1 = (ProcOut.ok r, s2) → r ≠ Data.nil →
        handleOperation cfg op c0 s
          = (HandlerOutcome.jsonOk r, s2, [Stage.provide, Stage.process])) := by
  refine ⟨?_, ?_, ?_, ?_⟩
  · intro e s1 hp
    simp [handleOperation, hfind, hen, hp]
  · intro d s1 e s2 hp hq
    simp [handleOperation, hfind, hen, hp, hq]
  · intro d s1 s2 hp hq
    simp [handleOperation, hfind, hen, hp, hq]
  · intro d s1 r s2 hp hq hr
    simp [handleOperation, hfind, hen, hp, hq, hr]

/-- Witness for C1: a provider error surfaces unchanged (a non-fiber error
value included) and the processor stage is not run. -/
theorem handleOperation_pipeline_witness :
    handleOperation
        { Model := userModel
          Operations := [(Operation.getItem,
            { Provider := fun _ _ => (Except.error (GoError.other "boom"), ())
              Processor := fun _ d _ => (ProcOut.ok d, ())
              Enabled := true })]
          Path := "/users" }
        Operation.getItem
        { Method := "GET", paramId := "1", body := Body.fields none none,
          localModel := none }
        ()
      = (HandlerOutcome.err (GoError.other "boom"), (), [Stage.provide]) :=
  (handleOperation_pipeline
      { Model := userModel
        Operations := [(Operation.getItem,
          { Provider := fun _ _ => (Except.error (GoError.other "boom"), ())
            Processor := fun _ d _ => (ProcOut.ok d, ())
            Enabled := true })]
        Path := "/users" }
      Operation.getItem
      { Method := "GET", paramId := "1", body := Body.fields none none,
        localModel := none }
      () _ rfl rfl).1 (GoError.other "boom") () rfl

/-- Setting the model local leaves the request method unchanged. -/
theorem withModel_Method (c : Ctx) (m : ModelValue) : (withModel c m).Method = c.Method :=
  rfl

/-- Setting the model local leaves the `:id` path parameter unchanged. -/
theorem withModel_paramId (c : Ctx) (m : ModelValue) : (withModel c m).paramId = c.paramId :=
  rfl

/-- After `withModel` the model local holds the given descriptor. -/
theorem withModel_localModel (c : Ctx) (m : ModelValue) :
    (withModel c m).localModel = some m :=
  rfl

/-- C10: with the default wiring, `findAll` returns a (non-nil) pointer to a
freshly allocated slice whenever storage reports success, so a successful
get_list dispatch never takes the nil-result 204 branch: an empty storage
result yields the JSON-serialized empty collection, not No Content. -/
theorem getList_success_never_noContent (db : Storage) (recs : List Instance)
    (c0 : Ctx) (shared : Instance) (tr : List StorageCall) (t : GoType)
    (hs : t.Shape = GoShape.strct) (hid : c0.paramId = "") (hmethod : c0.Method = "GET")
    (hfind : db.find = FindOutcome.rows recs) :
    Provide db (withModel c0 (ModelValue.byPtr t)) shared
      = (Except.ok (Data.list recs), shared, [StorageCall.findAll])
    ∧ Data.list recs ≠ Data.nil
    ∧ handleOperation (CreateResource db (ModelValue.byPtr t) []) Operation.getList
        c0 (shared, tr)
      = (HandlerOutcome.jsonOk (Data.list recs), (shared, tr ++ [StorageCall.findAll]),
         [Stage.provide, Stage.process]) := by
  have hv : validateModel (withModel c0 (ModelValue.byPtr t))
      = Except.ok (ModelValue.byPtr t) := by
    simp [validateModel, withModel_localModel, isPtrToStruct, hs]
  have hprov : Provide db (withModel c0 (ModelValue.byPtr t)) shared
      = (Except.ok (Data.list recs), shared, [StorageCall.findAll]) := by
    simp [Provide, hv, withModel_paramId, hid, findAll, hfind]
  refine ⟨hprov, by simp, ?_⟩
  have hproc : Process db (withModel c0 (ModelValue.byPtr t)) (Data.list recs)
      = (ProcOut.ok (Data.list recs), []) := by
    simp [Process, hv, withModel_Method, hmethod]
  have hcfgm : (CreateResource db (ModelValue.byPtr t) []).Model = ModelValue.byPtr t := rfl
  have hcfgo : findOp (CreateResource db (ModelValue.byPtr t) []).Operations Operation.getList
      = some { Provider := DefaultProvider db, Processor := DefaultProcessor db,
               Enabled := true } := rfl
  simp only [handleOperation, hcfgo, hcfgm]
  simp [DefaultProvider, DefaultProcessor, hprov, hproc]

/-- Witness for C10: an empty storage result flows through to a JSON empty
collection response, not 204 No Content. -/
theorem getList_success_never_noContent_witness :
    handleOperation
        (CreateResource
          { stubDB with find := FindOutcome.rows [] }
          userModel [])
        Operation.getList
        { Method := "GET", paramId := "", body := Body.fields none none,
          localModel := none }
        (zeroInstance, [])
      = (HandlerOutcome.jsonOk (Data.list []), (zeroInstance, [StorageCall.findAll]),
         [Stage.provide, Stage.process]) :=
  (getList_success_never_noContent { stubDB with find := FindOutcome.rows [] } []
      { Method := "GET", paramId := "", body := Body.fields none none, localModel := none }
      zeroInstance [] { Name := "user", Shape := GoShape.strct }
      rfl rfl rfl rfl).2.2

/-- C8: evaluating the default-wiring dispatch at a concrete get_item
request shows that request handling writes the shared model instance held in
`ResourceConfig.Model`: `findById` passes the shared model pointer itself as
the `DB.First` destination, so a successful lookup overwrites the pointee's
fields with the found record.  Here the shared instance starts zero-valued
and holds `{ID := 1, Name := "Test 1"}` after the dispatch. -/
theorem dispatch_writes_shared_model :
    (handleOperation (CreateResource stubDB userModel []) Operation.getItem
        { Method := "GET", paramId := "1", body := Body.fields none none,
          localModel := none }
        (zeroInstance, [])).2.1.1
      = { ID := 1, Name := "Test 1" }
    ∧ ({ ID := 1, Name := "Test 1" } : Instance) ≠ zeroInstance := by
  exact ⟨rfl, by decide⟩
